import Mathlib

/-! Sidebar widgets of TimeStylePebble (`src/sidebar_widgets.c`)

A shallow embedding of the sidebar widget module: the widget registry, the
empty widget, the battery meter and the date widget, together with the two
state-update entry points (`SidebarWidgets_updateFonts`,
`SidebarWidgets_updateTime`).

Conventions of the embedding:

* the process-wide globals of the C file are the fields of `Globals`, passed
  explicitly;
* everything the module reads from its collaborators (settings, battery
  service, resource loader, locale tables, the `PBL_COLOR` build flag) is a
  field of `Host`;
* a graphics context is its two current colours plus the list of drawing
  operations issued so far, oldest first;
* a function pointer is the name of the function it points to, or `null`;
* C character arrays are lists of characters, the terminator being
  `Char.ofNat 0`;
* offsets and coordinates are integers: the only arithmetic the module does on
  them is adding a constant below 20 to the offset it is given.
-/

namespace SidebarWidgets

/-! ## Graphics vocabulary -/

/-- The SDK type `GColor`, as far as the module uses it: the three colours it
names, and `custom` for any other colour value a setting may hold. -/
inductive GColor where
  | GColorBlack
  | GColorWhite
  | GColorRed
  | custom (code : Nat)
  deriving DecidableEq, Repr

/-- The SDK type `GPoint`, built by `GPoint(x, y)`. -/
structure GPoint where
  x : Int
  y : Int
  deriving DecidableEq, Repr

/-- The SDK type `GRect`, built by `GRect(x, y, w, h)`: origin and size. -/
structure GRect where
  x : Int
  y : Int
  w : Int
  h : Int
  deriving DecidableEq, Repr

/-- The corner masks the module passes to `graphics_fill_rect`. -/
inductive GCornerMask where
  | GCornerNone
  | GCornersAll
  deriving DecidableEq, Repr

/-- The system fonts loaded by `SidebarWidgets_init`; `null` is the value of a
font handle that was never assigned. -/
inductive GFont where
  | null
  | FONT_KEY_GOTHIC_14_BOLD
  | FONT_KEY_GOTHIC_18_BOLD
  | FONT_KEY_GOTHIC_24_BOLD
  deriving DecidableEq, Repr

/-- The image resources loaded by `SidebarWidgets_init`. -/
inductive ResourceId where
  | RESOURCE_ID_DATE_BG
  | RESOURCE_ID_DISCONNECTED
  | RESOURCE_ID_BATTERY_BG
  | RESOURCE_ID_BATTERY_CHARGE
  deriving DecidableEq, Repr

/-- An image pointer: `none` is `NULL` (never loaded, or the load failed). -/
abbrev Image := Option ResourceId

/-- One call of a drawing primitive, with the context colour it used. -/
inductive DrawOp where
  /-- The call `gdraw_command_image_draw(ctx, img, GPoint(x, y))`. -/
  | commandImage (img : ResourceId) (at_ : GPoint)
  /-- The call `graphics_draw_bitmap_in_rect(ctx, img, rect)`. -/
  | bitmapInRect (img : ResourceId) (rect : GRect)
  /-- The call `graphics_fill_rect(ctx, rect, radius, corners)` under fill colour `fill`. -/
  | fillRect (rect : GRect) (radius : Nat) (corners : GCornerMask) (fill : GColor)
  /-- The call `graphics_draw_text(ctx, text, font, box, GTextOverflowModeFill,
  GTextAlignmentCenter, NULL)` under text colour `color`. -/
  | text (text : List Char) (font : GFont) (box : GRect) (color : GColor)
  deriving DecidableEq, Repr

/-- The graphics context: current fill and text colour, and the canvas as the
list of operations drawn on it so far. -/
structure GContext where
  fillColor : GColor
  textColor : GColor
  ops : List DrawOp
  deriving DecidableEq, Repr

def graphics_context_set_fill_color (ctx : GContext) (c : GColor) : GContext :=
  { ctx with fillColor := c }

def graphics_context_set_text_color (ctx : GContext) (c : GColor) : GContext :=
  { ctx with textColor := c }

def gdraw_command_image_draw (ctx : GContext) (img : ResourceId) (p : GPoint) : GContext :=
  { ctx with ops := ctx.ops ++ [DrawOp.commandImage img p] }

def graphics_draw_bitmap_in_rect (ctx : GContext) (img : ResourceId) (r : GRect) : GContext :=
  { ctx with ops := ctx.ops ++ [DrawOp.bitmapInRect img r] }

def graphics_fill_rect (ctx : GContext) (r : GRect) (radius : Nat) (corners : GCornerMask) :
    GContext :=
  { ctx with ops := ctx.ops ++ [DrawOp.fillRect r radius corners ctx.fillColor] }

def graphics_draw_text (ctx : GContext) (s : List Char) (font : GFont) (box : GRect) :
    GContext :=
  { ctx with ops := ctx.ops ++ [DrawOp.text s font box ctx.textColor] }

/-! ## C strings -/

/-- The string terminator. -/
def NUL : Char := Char.ofNat 0

/-- The C string stored at the start of a character array: the characters
before the first terminator, or `none` when the array holds no terminator. -/
def cstr (buf : List Char) : Option (List Char) :=
  if NUL ∈ buf then some (buf.takeWhile (fun c => c != NUL)) else none

/-- The string a `char*` denotes when the bytes it points to are `raw` followed
by a terminator. -/
def strOf (raw : List Char) : List Char :=
  raw.takeWhile (fun c => c != NUL)

/-- The call `strncpy(dest, src, n)`: the first `n` characters of the string
`src`, padded with terminators up to `n` characters when the string is shorter;
the rest of `dest` is untouched. No terminator is written when the string has
`n` characters or more. -/
def strncpy (dest : List Char) (src : List Char) (n : Nat) : List Char :=
  let s := (strOf src).take n
  s ++ List.replicate (n - s.length) NUL ++ dest.drop n

/-- The call `snprintf(buf, size, ...)` whose complete formatted output would be
`out`: at most `size - 1` characters are stored, followed by a terminator. -/
def snprintf (buf : List Char) (size : Nat) (out : List Char) : List Char :=
  if size = 0 then buf
  else
    let w := out.take (size - 1) ++ [NUL]
    w ++ buf.drop w.length

/-- The conversion `%d` of an `int`. -/
def fmt_d (v : Int) : List Char :=
  if v < 0 then '-' :: Nat.toDigits 10 v.natAbs else Nat.toDigits 10 v.natAbs

/-- The conversion `%e` of `strftime`: the day of the month as a decimal
number, a single digit preceded by a space. -/
def fmt_e (mday : Nat) : List Char :=
  if mday < 10 then ' ' :: Nat.toDigits 10 mday else Nat.toDigits 10 mday

/-- The call `strftime(buf, max, "%e", timeInfo)`: the result and its terminator
are stored when they fit in `max` characters; otherwise the array is left as it
was (C leaves its contents unspecified in that case). -/
def strftime_e (buf : List Char) (max : Nat) (mday : Nat) : List Char :=
  let out := fmt_e mday
  if out.length + 1 ≤ max then out ++ [NUL] ++ buf.drop (out.length + 1) else buf

/-! ## Single-precision arithmetic

`BatteryMeter_draw` computes the bar width in `float`. Only non-negative finite
values occur; such a value is kept as the dyadic rational `num / 2 ^ sh`.
Rounding is IEEE 754 binary32 round-to-nearest, ties-to-even, with a 24-bit
significand and gradual underflow down to `2 ^ (-149)`. Overflow to infinity is
not represented: it needs a magnitude of `2 ^ 128`, out of reach of `int`
operands. -/

/-- A non-negative finite `float`: the number `num / 2 ^ sh`. -/
structure F32 where
  num : Nat
  sh : Nat
  deriving DecidableEq, Repr

/-- The quotient `a / b` rounded to the nearest integer, ties to even. -/
def rne (a b : Nat) : Nat :=
  let q := a / b
  let r := a % b
  if 2 * r < b then q
  else if b < 2 * r then q + 1
  else if q % 2 = 0 then q else q + 1

/-- The least `s` (searching upwards from `s`, at most `fuel` steps) such that
`n * 2 ^ s / d` is at least `2 ^ 23`. -/
def scaleUp : Nat → Nat → Nat → Nat → Nat
  | 0, _, _, s => s
  | fuel + 1, n, d, s =>
    if d * 2 ^ 23 ≤ n * 2 ^ s then s else scaleUp fuel n d (s + 1)

/-- The least `t` (searching upwards from `t`, at most `fuel` steps) such that
`n / (d * 2 ^ t)` is below `2 ^ 24`. -/
def scaleDown : Nat → Nat → Nat → Nat → Nat
  | 0, _, _, t => t
  | fuel + 1, n, d, t =>
    if n < d * 2 ^ (24 + t) then t else scaleDown fuel n d (t + 1)

/-- The rational `n / d` rounded to `float`. -/
def f32round (n d : Nat) : F32 :=
  if n = 0 ∨ d = 0 then ⟨0, 0⟩
  else
    let s := scaleUp 149 n d 0
    if s = 0 then
      let t := scaleDown 128 n d 0
      ⟨rne n (d * 2 ^ t) * 2 ^ t, 0⟩
    else ⟨rne (n * 2 ^ s) d, s⟩

/-- Conversion of a non-negative `int` to `float`. -/
def f32ofNat (n : Nat) : F32 := f32round n 1

/-- Division of `float` values. -/
def f32div (a b : F32) : F32 :=
  f32round (a.num * 2 ^ b.sh) (b.num * 2 ^ a.sh)

/-- The function `roundf`: the nearest integer, halves away from zero. -/
def roundf (x : F32) : F32 :=
  ⟨(2 * x.num + 2 ^ x.sh) / 2 ^ (x.sh + 1), 0⟩

/-- Conversion of a `float` to `int`: the fractional part is discarded. -/
def f32toInt (x : F32) : Int :=
  Int.ofNat (x.num / 2 ^ x.sh)

/-! ## Collaborators and module state -/

/-- The fields of `globalSettings` the module reads (`settings.h` is not among
the sources). -/
structure Settings where
  useLargeFonts : Bool
  showBatteryPct : Bool
  sidebarTextColor : GColor
  languageId : Nat

/-- The result of `battery_state_service_peek()`, as far as the module reads it.
The percentage is an unsigned 8-bit field of the SDK, reported from 0 to 100. -/
structure BatteryChargeState where
  charge_percent : Nat
  is_charging : Bool
  deriving DecidableEq, Repr

/-- The fields of `struct tm` the module reads. -/
structure Tm where
  tm_mday : Nat
  tm_mon : Nat
  tm_wday : Nat
  deriving DecidableEq, Repr

/-- Everything the module obtains from outside itself. -/
structure Host where
  /-- Whether the build defines `PBL_COLOR` (full-colour display). -/
  PBL_COLOR : Bool
  globalSettings : Settings
  /-- What `battery_state_service_peek()` returns. -/
  battery_state_service_peek : BatteryChargeState
  /-- Whether creating the image for a resource succeeds. -/
  resourceLoads : ResourceId → Bool
  /-- The locale table `dayNames[languageId][tm_wday]` of `languages.h`. -/
  dayNames : Nat → Nat → List Char
  /-- The locale table `monthNames[languageId][tm_mon]` of `languages.h`. -/
  monthNames : Nat → Nat → List Char

/-- The functions a `getHeight` pointer can hold. -/
inductive GetHeightFn where
  | null
  | BatteryMeter_getHeight
  | EmptyWidget_getHeight
  | DateWidget_getHeight
  deriving DecidableEq, Repr

/-- The functions a `draw` pointer can hold. -/
inductive DrawFn where
  | null
  | BatteryMeter_draw
  | EmptyWidget_draw
  | DateWidget_draw
  deriving DecidableEq, Repr

/-- The descriptor `SidebarWidget` of `sidebar_widgets.h`: a pair of function
pointers. -/
structure SidebarWidget where
  getHeight : GetHeightFn
  draw : DrawFn
  deriving DecidableEq, Repr

/-- The file-scope variables of `sidebar_widgets.c`. -/
structure Globals where
  SidebarWidgets_useCompactMode : Bool
  dateImage : Image
  disconnectImage : Image
  batteryImage : Image
  batteryChargeImage : Image
  smSidebarFont : GFont
  mdSidebarFont : GFont
  lgSidebarFont : GFont
  currentSidebarFont : GFont
  batteryFont : GFont
  currentDayName : List Char
  currentDayNum : List Char
  currentMonth : List Char
  batteryMeterWidget : SidebarWidget
  emptyWidget : SidebarWidget
  dateWidget : SidebarWidget
  deriving DecidableEq, Repr

/-- The globals at program start: static storage is zero-initialised. -/
def Globals.start : Globals where
  SidebarWidgets_useCompactMode := false
  dateImage := none
  disconnectImage := none
  batteryImage := none
  batteryChargeImage := none
  smSidebarFont := GFont.null
  mdSidebarFont := GFont.null
  lgSidebarFont := GFont.null
  currentSidebarFont := GFont.null
  batteryFont := GFont.null
  currentDayName := List.replicate 8 NUL
  currentDayNum := List.replicate 8 NUL
  currentMonth := List.replicate 8 NUL
  batteryMeterWidget := ⟨GetHeightFn.null, DrawFn.null⟩
  emptyWidget := ⟨GetHeightFn.null, DrawFn.null⟩
  dateWidget := ⟨GetHeightFn.null, DrawFn.null⟩

/-- The calls `gdraw_command_image_create_with_resource(id)` and
`gbitmap_create_with_resource(id)`: the image, or `NULL` on failure. -/
def createImage (h : Host) (id : ResourceId) : Image :=
  if h.resourceLoads id then some id else none

/-! ## State updates -/

def SidebarWidgets_updateFonts (h : Host) (g : Globals) : Globals :=
  if h.globalSettings.useLargeFonts then
    { g with currentSidebarFont := g.lgSidebarFont, batteryFont := g.lgSidebarFont }
  else
    { g with currentSidebarFont := g.mdSidebarFont, batteryFont := g.smSidebarFont }

def SidebarWidgets_init (h : Host) (g : Globals) : Globals :=
  -- load fonts
  let g := { g with smSidebarFont := GFont.FONT_KEY_GOTHIC_14_BOLD,
                    mdSidebarFont := GFont.FONT_KEY_GOTHIC_18_BOLD,
                    lgSidebarFont := GFont.FONT_KEY_GOTHIC_24_BOLD }
  -- load the sidebar graphics (the same four resources on either display)
  let g := { g with dateImage := createImage h ResourceId.RESOURCE_ID_DATE_BG,
                    disconnectImage := createImage h ResourceId.RESOURCE_ID_DISCONNECTED,
                    batteryImage := createImage h ResourceId.RESOURCE_ID_BATTERY_BG,
                    batteryChargeImage := createImage h ResourceId.RESOURCE_ID_BATTERY_CHARGE }
  let g := SidebarWidgets_updateFonts h g
  -- set up the function pointers of the widgets
  { g with batteryMeterWidget := ⟨GetHeightFn.BatteryMeter_getHeight, DrawFn.BatteryMeter_draw⟩,
           emptyWidget := ⟨GetHeightFn.EmptyWidget_getHeight, DrawFn.EmptyWidget_draw⟩,
           dateWidget := ⟨GetHeightFn.DateWidget_getHeight, DrawFn.DateWidget_draw⟩ }

def SidebarWidgets_updateTime (h : Host) (g : Globals) (timeInfo : Tm) : Globals :=
  -- set all the date strings
  let g := { g with currentDayNum := strftime_e g.currentDayNum 3 timeInfo.tm_mday }
  let dayName := h.dayNames h.globalSettings.languageId timeInfo.tm_wday
  let g := { g with currentDayName := strncpy g.currentDayName dayName 8 }
  let month := h.monthNames h.globalSettings.languageId timeInfo.tm_mon
  let g := { g with currentMonth := strncpy g.currentMonth month 8 }
  -- remove padding on date num, if needed
  if g.currentDayNum.getD 0 NUL = ' ' then
    let b := g.currentDayNum.set 0 (g.currentDayNum.getD 1 NUL)
    { g with currentDayNum := b.set 1 NUL }
  else g

/-! ## Widget selection -/

/-- The lookup `getSidebarWidgetByType`. The enumeration `SidebarWidgetType`
belongs to `sidebar_widgets.h`, which is not among the sources: a type is its
integer value and the two enumerators of the `switch` are parameters. -/
def getSidebarWidgetByType (BATTERY_METER DATE : Int) (g : Globals) (type : Int) :
    SidebarWidget :=
  if type = BATTERY_METER then g.batteryMeterWidget
  else if type = DATE then g.dateWidget
  else g.emptyWidget

/-! ## The empty widget -/

def EmptyWidget_getHeight : Int := 0

def EmptyWidget_draw (ctx : GContext) (_yPosition : Int) : GContext := ctx

/-! ## The battery meter widget -/

def BatteryMeter_getHeight : Int := 20

/-- The statement `int width = roundf(18 * charge_percent / 100.0f);`. -/
def batteryBarWidth (charge_percent : Nat) : Int :=
  f32toInt (roundf (f32div (f32ofNat (18 * charge_percent)) (f32ofNat 100)))

/-- The array `batteryString` after `snprintf(batteryString, 6, fmt, value)`,
where `fmt` is `"%d"` in large-font mode and `"%d%%"` otherwise. The array is
uninitialised before the call; the characters behind the terminator stand for
whatever it held. -/
def batteryString (useLargeFonts : Bool) (value : Int) : List Char :=
  snprintf (List.replicate 6 NUL) 6
    (if useLargeFonts then fmt_d value else fmt_d value ++ ['%'])

def BatteryMeter_draw (h : Host) (g : Globals) (ctx : GContext) (yPosition : Int) : GContext :=
  let chargeState := h.battery_state_service_peek
  let batteryPositionY := yPosition
  let ctx :=
    if chargeState.is_charging then
      match g.batteryChargeImage with
      | some img =>
        if h.PBL_COLOR then gdraw_command_image_draw ctx img ⟨3, batteryPositionY⟩
        else graphics_draw_bitmap_in_rect ctx img ⟨3, batteryPositionY, 25, 25⟩
      | none => ctx
    else
      let ctx :=
        match g.batteryImage with
        | some img =>
          if h.PBL_COLOR then gdraw_command_image_draw ctx img ⟨3, batteryPositionY⟩
          else graphics_draw_bitmap_in_rect ctx img ⟨3, batteryPositionY, 25, 25⟩
        | none => ctx
      let width := batteryBarWidth chargeState.charge_percent
      let ctx := graphics_context_set_fill_color ctx GColor.GColorBlack
      let ctx :=
        if h.PBL_COLOR then
          if chargeState.charge_percent ≤ 20 then
            graphics_context_set_fill_color ctx GColor.GColorRed
          else ctx
        else
          if h.globalSettings.sidebarTextColor = GColor.GColorWhite then
            graphics_context_set_fill_color ctx GColor.GColorWhite
          else ctx
      graphics_fill_rect ctx ⟨6, 8 + batteryPositionY, width, 8⟩ 0 GCornerMask.GCornerNone
  -- never show battery % while charging
  if h.globalSettings.showBatteryPct && !chargeState.is_charging then
    if !h.globalSettings.useLargeFonts then
      graphics_draw_text ctx (strOf (batteryString false (Int.ofNat chargeState.charge_percent)))
        g.batteryFont ⟨-4, 18 + batteryPositionY, 38, 20⟩
    else
      graphics_draw_text ctx (strOf (batteryString true (Int.ofNat chargeState.charge_percent)))
        g.batteryFont ⟨-4, 14 + batteryPositionY, 38, 20⟩
  else ctx

/-! ## The date widget -/

def DateWidget_getHeight : Int := 50

def DateWidget_draw (h : Host) (g : Globals) (ctx : GContext) (_yPosition : Int) : GContext :=
  -- in large font mode, draw a different date image
  let ctx :=
    if !h.globalSettings.useLargeFonts then
      match g.dateImage with
      | some img =>
        if h.PBL_COLOR then gdraw_command_image_draw ctx img ⟨3, 118⟩
        else graphics_draw_bitmap_in_rect ctx img ⟨3, 118, 25, 25⟩
      | none => ctx
    else
      if h.PBL_COLOR then
        let ctx := graphics_context_set_fill_color ctx GColor.GColorWhite
        graphics_fill_rect ctx ⟨2, 119, 26, 22⟩ 2 GCornerMask.GCornersAll
      else
        let ctx :=
          if h.globalSettings.sidebarTextColor = GColor.GColorWhite then
            graphics_context_set_fill_color ctx GColor.GColorWhite
          else graphics_context_set_fill_color ctx GColor.GColorBlack
        let ctx := graphics_fill_rect ctx ⟨1, 119, 28, 22⟩ 2 GCornerMask.GCornersAll
        let ctx :=
          if h.globalSettings.sidebarTextColor = GColor.GColorWhite then
            graphics_context_set_fill_color ctx GColor.GColorBlack
          else graphics_context_set_fill_color ctx GColor.GColorWhite
        graphics_fill_rect ctx ⟨3, 121, 24, 18⟩ 0 GCornerMask.GCornersAll
  -- color pebble should always use black for the date number
  let ctx := if h.PBL_COLOR then graphics_context_set_text_color ctx GColor.GColorBlack else ctx
  let yPos : Int := if h.globalSettings.useLargeFonts then 113 else 121
  let ctx := graphics_draw_text ctx (strOf g.currentDayNum) g.currentSidebarFont ⟨0, yPos, 30, 20⟩
  -- switch back to normal color for the rest
  let ctx :=
    if h.PBL_COLOR then graphics_context_set_text_color ctx h.globalSettings.sidebarTextColor
    else ctx
  let yPos : Int := if h.globalSettings.useLargeFonts then 89 else 95
  -- now draw in the date info
  let ctx := graphics_draw_text ctx (strOf g.currentDayName) g.currentSidebarFont ⟨-5, yPos, 40, 20⟩
  -- y position for month text
  let yPos : Int := if h.globalSettings.useLargeFonts then 137 else 142
  graphics_draw_text ctx (strOf g.currentMonth) g.currentSidebarFont ⟨0, yPos, 30, 20⟩

/-! ## Calls through a descriptor -/

/-- A call through a `getHeight` pointer; `none` is the call through `NULL`. -/
def callGetHeight : GetHeightFn → Option Int
  | GetHeightFn.null => none
  | GetHeightFn.BatteryMeter_getHeight => some BatteryMeter_getHeight
  | GetHeightFn.EmptyWidget_getHeight => some EmptyWidget_getHeight
  | GetHeightFn.DateWidget_getHeight => some DateWidget_getHeight

/-- A call through a `draw` pointer; `none` is the call through `NULL`. -/
def callDraw (h : Host) (g : Globals) : DrawFn → GContext → Int → Option GContext
  | DrawFn.null, _, _ => none
  | DrawFn.BatteryMeter_draw, ctx, y => some (BatteryMeter_draw h g ctx y)
  | DrawFn.EmptyWidget_draw, ctx, y => some (EmptyWidget_draw ctx y)
  | DrawFn.DateWidget_draw, ctx, y => some (DateWidget_draw h g ctx y)

/-! ## Observations on a drawing call -/

/-- The operations a call added to the canvas, given the context before and
after the call. -/
def emitted (before after : GContext) : List DrawOp :=
  after.ops.drop before.ops.length

/-- The rectangles filled, in drawing order. -/
def fillRects : List DrawOp → List GRect
  | [] => []
  | DrawOp.fillRect r _ _ _ :: ops => r :: fillRects ops
  | _ :: ops => fillRects ops

/-- The colours used to fill rectangles, in drawing order. -/
def fillColors : List DrawOp → List GColor
  | [] => []
  | DrawOp.fillRect _ _ _ c :: ops => c :: fillColors ops
  | _ :: ops => fillColors ops

/-- The texts drawn, each with its box, in drawing order. -/
def textBoxes : List DrawOp → List (List Char × GRect)
  | [] => []
  | DrawOp.text s _ box _ :: ops => (s, box) :: textBoxes ops
  | _ :: ops => textBoxes ops

/-- The images drawn, each with the point of its top-left corner, in drawing
order. -/
def imageAnchors : List DrawOp → List (ResourceId × GPoint)
  | [] => []
  | DrawOp.commandImage img p :: ops => (img, p) :: imageAnchors ops
  | DrawOp.bitmapInRect img r :: ops => (img, ⟨r.x, r.y⟩) :: imageAnchors ops
  | _ :: ops => imageAnchors ops

/-- The rectangles an operation list fills, draws a bitmap into or draws text
into, in drawing order. -/
def opRects : List DrawOp → List GRect
  | [] => []
  | DrawOp.commandImage _ _ :: ops => opRects ops
  | DrawOp.bitmapInRect _ r :: ops => r :: opRects ops
  | DrawOp.fillRect r _ _ _ :: ops => r :: opRects ops
  | DrawOp.text _ _ box _ :: ops => box :: opRects ops

/-- The quotient `n / d` rounded to the nearest integer, halves rounded up. -/
def roundHalfUp (n d : Nat) : Nat :=
  (2 * n + d) / (2 * d)

/-! ## Fixtures -/

/-- A host for examples: the display kind, the font and battery-percentage
settings, the battery state and the sidebar text colour are the arguments;
every resource loads and the locale tables hold English abbreviations. -/
def exampleHost (color large showPct charging : Bool) (percent : Nat) (textColor : GColor) :
    Host where
  PBL_COLOR := color
  globalSettings := ⟨large, showPct, textColor, 0⟩
  battery_state_service_peek := ⟨percent, charging⟩
  resourceLoads := fun _ => true
  dayNames := fun _ wday =>
    (["SUN", "MON", "TUE", "WED", "THU", "FRI", "SAT"].getD wday "").toList
  monthNames := fun _ mon =>
    (["JAN", "FEB", "MAR", "APR", "MAY", "JUN", "JUL", "AUG", "SEP", "OCT", "NOV",
      "DEC"].getD mon "").toList

/-- A host whose day-name table holds full German day names, longer than the
7 characters an 8-character array can hold with its terminator. -/
def longNameHost : Host where
  PBL_COLOR := true
  globalSettings := ⟨false, false, GColor.GColorWhite, 0⟩
  battery_state_service_peek := ⟨75, false⟩
  resourceLoads := fun _ => true
  dayNames := fun _ wday =>
    (["SONNTAG", "MONTAG", "DIENSTAG", "MITTWOCH", "DONNERSTAG", "FREITAG",
      "SAMSTAG"].getD wday "").toList
  monthNames := fun _ mon =>
    (["JAN", "FEB", "MAR", "APR", "MAI", "JUN", "JUL", "AUG", "SEP", "OKT", "NOV",
      "DEZ"].getD mon "").toList

/-- An empty canvas with black fill and text colour. -/
def blankContext : GContext := ⟨GColor.GColorBlack, GColor.GColorBlack, []⟩

/-! ## Auxiliary facts -/

/-- On the range of a battery percentage the single-precision computation of
the bar width agrees with exact round-half-up of `18 * p / 100`. -/
theorem batteryBarWidth_eq (p : Nat) (hp : p ≤ 100) :
    batteryBarWidth p = Int.ofNat (roundHalfUp (18 * p) 100) := by
  interval_cases p <;> rfl

theorem digitChar_ne_NUL (n : Nat) : n.digitChar ≠ NUL := by
  by_cases hn : n < 16
  · interval_cases n <;> decide
  · unfold Nat.digitChar
    repeat rw [if_neg (by omega)]
    decide

theorem toDigitsCore_ne_NUL (b : Nat) : ∀ (fuel n : Nat) (ds : List Char),
    (∀ c ∈ ds, c ≠ NUL) → ∀ c ∈ Nat.toDigitsCore b fuel n ds, c ≠ NUL
  | 0, _, ds, hds => by simpa [Nat.toDigitsCore] using hds
  | fuel + 1, n, ds, hds => by
    have hcons : ∀ c ∈ (n % b).digitChar :: ds, c ≠ NUL := by
      intro c hc
      rcases List.mem_cons.mp hc with rfl | hc
      · exact digitChar_ne_NUL _
      · exact hds c hc
    unfold Nat.toDigitsCore
    by_cases h0 : n / b = 0
    · simpa [h0] using hcons
    · simpa [h0] using toDigitsCore_ne_NUL b fuel (n / b) _ hcons

theorem toDigits_ne_NUL (n : Nat) : ∀ c ∈ Nat.toDigits 10 n, c ≠ NUL := by
  unfold Nat.toDigits
  exact toDigitsCore_ne_NUL 10 _ _ _ (by simp)

theorem fmt_d_ne_NUL (v : Int) : ∀ c ∈ fmt_d v, c ≠ NUL := by
  intro c hc
  unfold fmt_d at hc
  split at hc
  · rcases List.mem_cons.mp hc with rfl | hc
    · decide
    · exact toDigits_ne_NUL _ c hc
  · exact toDigits_ne_NUL _ c hc

/-- Reading a string stops at the first terminator. -/
theorem takeWhile_terminated (l rest : List Char) (hl : ∀ c ∈ l, c ≠ NUL) :
    (l ++ NUL :: rest).takeWhile (fun c => c != NUL) = l := by
  induction l with
  | nil => simp
  | cons a l ih =>
    have ha : a ≠ NUL := hl a (List.mem_cons_self _ _)
    have := ih (fun c hc => hl c (List.mem_cons_of_mem _ hc))
    have hb : (a != NUL) = true := by simpa using ha
    rw [List.cons_append, List.takeWhile_cons, hb, this]
    rfl

theorem cstr_terminated (l rest : List Char) (hl : ∀ c ∈ l, c ≠ NUL) :
    cstr (l ++ NUL :: rest) = some l := by
  unfold cstr
  rw [if_pos (by simp), takeWhile_terminated l rest hl]

theorem cstr_one (a : Char) (rest : List Char) (ha : a ≠ NUL) :
    cstr (a :: NUL :: rest) = some [a] :=
  cstr_terminated [a] rest (by simpa using ha)

theorem cstr_two (a b : Char) (rest : List Char) (ha : a ≠ NUL) (hb : b ≠ NUL) :
    cstr (a :: b :: NUL :: rest) = some [a, b] :=
  cstr_terminated [a, b] rest (by simpa using ⟨ha, hb⟩)

theorem strOf_ne_NUL (raw : List Char) : ∀ c ∈ strOf raw, c ≠ NUL := by
  intro c hc
  have := List.mem_takeWhile_imp hc
  simpa using this

/-- A string shorter than `n` is copied whole by `strncpy` and terminated. -/
theorem strncpy_cstr (dest src : List Char) (n : Nat) (hlen : (strOf src).length < n) :
    cstr (strncpy dest src n) = some (strOf src) := by
  unfold strncpy
  have htake : (strOf src).take n = strOf src := List.take_of_length_le (by omega)
  simp only [htake]
  obtain ⟨k, hk⟩ : ∃ k, n - (strOf src).length = k + 1 := ⟨n - (strOf src).length - 1, by omega⟩
  rw [hk, List.replicate_succ, List.append_assoc, List.cons_append]
  exact cstr_terminated _ _ (strOf_ne_NUL src)

/-- The call `strncpy` writes inside the array when `n` is at most its length:
the array keeps its length. -/
theorem strncpy_length (dest src : List Char) (n : Nat) (hn : n ≤ dest.length) :
    (strncpy dest src n).length = dest.length := by
  unfold strncpy
  simp only [List.length_append, List.length_take, List.length_replicate, List.length_drop]
  omega

/-- What `snprintf` leaves in the array reads back as the output cut to
`size - 1` characters. -/
theorem snprintf_cstr (buf out : List Char) (size : Nat) (hsize : 0 < size)
    (hout : ∀ c ∈ out, c ≠ NUL) :
    cstr (snprintf buf size out) = some (out.take (size - 1)) := by
  unfold snprintf
  rw [if_neg (by omega)]
  simp only [List.append_assoc, List.singleton_append]
  exact cstr_terminated _ _ (fun c hc => hout c (List.mem_of_mem_take hc))

/-- The call `snprintf` writes inside the array when `size` is at most its
length: the array keeps its length. -/
theorem snprintf_length (buf out : List Char) (size : Nat) (hsize : size ≤ buf.length) :
    (snprintf buf size out).length = buf.length := by
  unfold snprintf
  split
  · rfl
  · simp only [List.length_append, List.length_take, List.length_singleton, List.length_drop]
    omega

/-- For a battery percentage the formatted text fits the array untruncated. -/
theorem batteryString_text (large : Bool) (p : Nat) (hp : p ≤ 100) :
    strOf (batteryString large (Int.ofNat p))
      = (if large then Nat.toDigits 10 p else Nat.toDigits 10 p ++ ['%']) := by
  interval_cases p <;> cases large <;> rfl

theorem roundHalfUp_mono (a b : Nat) (hab : a ≤ b) :
    roundHalfUp (18 * a) 100 ≤ roundHalfUp (18 * b) 100 := by
  unfold roundHalfUp
  apply Nat.div_le_div_right
  omega

theorem roundHalfUp_le (p : Nat) (hp : p ≤ 100) : roundHalfUp (18 * p) 100 ≤ 18 := by
  unfold roundHalfUp
  omega

end SidebarWidgets

namespace SidebarWidgets

/-! ## The registry -/

/-- C1: after `SidebarWidgets_init`, `getSidebarWidgetByType` returns the battery
meter descriptor for `BATTERY_METER`, the date descriptor for `DATE`, and for
every other type value the empty descriptor, whose `getHeight` returns 0 and
whose `draw` leaves any canvas as it was for any offset. -/
theorem getSidebarWidgetByType_total (BATTERY_METER DATE : Int)
    (hdistinct : BATTERY_METER ≠ DATE) (h : Host) (g0 : Globals) (type : Int)
    (h1 : type ≠ BATTERY_METER) (h2 : type ≠ DATE) (ctx : GContext) (yOffset : Int) :
    getSidebarWidgetByType BATTERY_METER DATE (SidebarWidgets_init h g0) BATTERY_METER
        = ⟨GetHeightFn.BatteryMeter_getHeight, DrawFn.BatteryMeter_draw⟩
      ∧ getSidebarWidgetByType BATTERY_METER DATE (SidebarWidgets_init h g0) DATE
        = ⟨GetHeightFn.DateWidget_getHeight, DrawFn.DateWidget_draw⟩
      ∧ getSidebarWidgetByType BATTERY_METER DATE (SidebarWidgets_init h g0) type
        = ⟨GetHeightFn.EmptyWidget_getHeight, DrawFn.EmptyWidget_draw⟩
      ∧ callGetHeight
          (getSidebarWidgetByType BATTERY_METER DATE (SidebarWidgets_init h g0) type).getHeight
        = some 0
      ∧ callDraw h (SidebarWidgets_init h g0)
          (getSidebarWidgetByType BATTERY_METER DATE (SidebarWidgets_init h g0) type).draw
          ctx yOffset
        = some ctx
      ∧ emitted ctx (EmptyWidget_draw ctx yOffset) = [] := by
  have hd : DATE ≠ BATTERY_METER := fun e => hdistinct e.symm
  simp [getSidebarWidgetByType, SidebarWidgets_init, SidebarWidgets_updateFonts, hd, h1, h2,
    callGetHeight, callDraw, EmptyWidget_getHeight, EmptyWidget_draw, emitted]

/-- C1 at a concrete input: enumerators 1 and 2, the unknown type value 7, a
canvas that already holds one operation, offset 40. -/
theorem getSidebarWidgetByType_total_witness :
    (1 : Int) ≠ 2 ∧ (7 : Int) ≠ 1 ∧ (7 : Int) ≠ 2
      ∧ getSidebarWidgetByType 1 2
          (SidebarWidgets_init (exampleHost true false true false 75 GColor.GColorWhite)
            Globals.start) 7
        = ⟨GetHeightFn.EmptyWidget_getHeight, DrawFn.EmptyWidget_draw⟩
      ∧ callDraw (exampleHost true false true false 75 GColor.GColorWhite)
          (SidebarWidgets_init (exampleHost true false true false 75 GColor.GColorWhite)
            Globals.start)
          (getSidebarWidgetByType 1 2
            (SidebarWidgets_init (exampleHost true false true false 75 GColor.GColorWhite)
              Globals.start) 7).draw
          ⟨GColor.GColorRed, GColor.GColorWhite, [DrawOp.fillRect ⟨0, 0, 30, 168⟩ 0
            GCornerMask.GCornerNone GColor.GColorRed]⟩ 40
        = some ⟨GColor.GColorRed, GColor.GColorWhite, [DrawOp.fillRect ⟨0, 0, 30, 168⟩ 0
            GCornerMask.GCornerNone GColor.GColorRed]⟩ :=
  have w := getSidebarWidgetByType_total 1 2 (by decide)
    (exampleHost true false true false 75 GColor.GColorWhite) Globals.start 7
    (by decide) (by decide)
    ⟨GColor.GColorRed, GColor.GColorWhite, [DrawOp.fillRect ⟨0, 0, 30, 168⟩ 0
      GCornerMask.GCornerNone GColor.GColorRed]⟩ 40
  ⟨by decide, by decide, by decide, w.2.2.1, w.2.2.2.2.1⟩

/-! ## The battery meter -/

/-- C3: while charging, whatever the charge, the percentage setting and the font
setting, `BatteryMeter_draw` changes no colour and draws the charging icon at
`(3, yOffset)` when that image is loaded and nothing else; it draws nothing when
the image is null. In particular it draws no text and fills no rectangle. -/
theorem BatteryMeter_draw_charging (h : Host) (g : Globals) (ctx : GContext) (yOffset : Int)
    (hc : h.battery_state_service_peek.is_charging = true) :
    emitted ctx (BatteryMeter_draw h g ctx yOffset)
        = (match g.batteryChargeImage with
          | some img =>
            if h.PBL_COLOR then [DrawOp.commandImage img ⟨3, yOffset⟩]
            else [DrawOp.bitmapInRect img ⟨3, yOffset, 25, 25⟩]
          | none => [])
      ∧ textBoxes (emitted ctx (BatteryMeter_draw h g ctx yOffset)) = []
      ∧ fillRects (emitted ctx (BatteryMeter_draw h g ctx yOffset)) = []
      ∧ imageAnchors (emitted ctx (BatteryMeter_draw h g ctx yOffset))
        = (match g.batteryChargeImage with
          | some img => [(img, ⟨3, yOffset⟩)]
          | none => [])
      ∧ (BatteryMeter_draw h g ctx yOffset).fillColor = ctx.fillColor
      ∧ (BatteryMeter_draw h g ctx yOffset).textColor = ctx.textColor := by
  cases hi : g.batteryChargeImage <;> cases hcol : h.PBL_COLOR <;>
    simp [BatteryMeter_draw, hc, hi, hcol, emitted, gdraw_command_image_draw,
      graphics_draw_bitmap_in_rect, textBoxes, fillRects, imageAnchors]

/-- C3 at the scenario of the specification: 75 percent, charging, percentage
display enabled, after `SidebarWidgets_init` with every image loaded. -/
theorem BatteryMeter_draw_charging_witness :
    (exampleHost true false true true 75 GColor.GColorWhite).battery_state_service_peek.is_charging
        = true
      ∧ emitted blankContext
          (BatteryMeter_draw (exampleHost true false true true 75 GColor.GColorWhite)
            (SidebarWidgets_init (exampleHost true false true true 75 GColor.GColorWhite)
              Globals.start) blankContext 10)
        = [DrawOp.commandImage ResourceId.RESOURCE_ID_BATTERY_CHARGE ⟨3, 10⟩] :=
  ⟨rfl, (BatteryMeter_draw_charging (exampleHost true false true true 75 GColor.GColorWhite)
    (SidebarWidgets_init (exampleHost true false true true 75 GColor.GColorWhite) Globals.start)
    blankContext 10 rfl).1⟩

/-- C2: while not charging, for every charge `p` from 0 to 100 the bar is the
only rectangle `BatteryMeter_draw` fills, at `(6, yOffset + 8)` with height 8, and
its width is `18 * p / 100` rounded to the nearest integer, halves up. That
width is non-decreasing in `p` (compared here with any `q` below `p`), lies
between 0 and 18, is 0 at 0 and 18 at 100, 5 at 25 and 14 at 75. -/
theorem BatteryMeter_draw_bar_width (h : Host) (g : Globals) (ctx : GContext)
    (yOffset : Int) (q : Nat)
    (hc : h.battery_state_service_peek.is_charging = false)
    (hp : h.battery_state_service_peek.charge_percent ≤ 100)
    (hq : q ≤ h.battery_state_service_peek.charge_percent) :
    fillRects (emitted ctx (BatteryMeter_draw h g ctx yOffset))
        = [⟨6, yOffset + 8,
            Int.ofNat (roundHalfUp (18 * h.battery_state_service_peek.charge_percent) 100), 8⟩]
      ∧ batteryBarWidth h.battery_state_service_peek.charge_percent
        = Int.ofNat (roundHalfUp (18 * h.battery_state_service_peek.charge_percent) 100)
      ∧ batteryBarWidth q ≤ batteryBarWidth h.battery_state_service_peek.charge_percent
      ∧ 0 ≤ batteryBarWidth h.battery_state_service_peek.charge_percent
      ∧ batteryBarWidth h.battery_state_service_peek.charge_percent ≤ 18
      ∧ batteryBarWidth 0 = 0 ∧ batteryBarWidth 100 = 18
      ∧ batteryBarWidth 25 = 5 ∧ batteryBarWidth 75 = 14 := by
  have hw := batteryBarWidth_eq _ hp
  have hwq := batteryBarWidth_eq q (le_trans hq hp)
  refine ⟨?_, hw, ?_, ?_, ?_, rfl, rfl, rfl, rfl⟩
  · cases hi : g.batteryImage <;> cases hs : h.globalSettings.showBatteryPct <;>
      cases hl : h.globalSettings.useLargeFonts <;> cases hcol : h.PBL_COLOR <;>
      by_cases h20 : h.battery_state_service_peek.charge_percent ≤ 20 <;>
      by_cases hwhite : h.globalSettings.sidebarTextColor = GColor.GColorWhite <;>
      simp [BatteryMeter_draw, hc, hi, hcol, hs, hl, h20, hwhite, hw, emitted,
        gdraw_command_image_draw, graphics_draw_bitmap_in_rect, graphics_fill_rect,
        graphics_draw_text, graphics_context_set_fill_color, fillRects, add_comm]
  · rw [hw, hwq]
    exact Int.ofNat_le.mpr (roundHalfUp_mono _ _ hq)
  · rw [hw]
    exact Int.ofNat_nonneg _
  · rw [hw]
    exact Int.ofNat_le.mpr (roundHalfUp_le _ hp)

/-- C2 at a concrete input: 75 percent against 25 percent, offset 10. -/
theorem BatteryMeter_draw_bar_width_witness :
    (exampleHost true false false false 75
        GColor.GColorWhite).battery_state_service_peek.is_charging = false
      ∧ (exampleHost true false false false 75
          GColor.GColorWhite).battery_state_service_peek.charge_percent ≤ 100
      ∧ 25 ≤ (exampleHost true false false false 75
          GColor.GColorWhite).battery_state_service_peek.charge_percent
      ∧ fillRects (emitted blankContext
          (BatteryMeter_draw (exampleHost true false false false 75 GColor.GColorWhite)
            Globals.start blankContext 10))
        = [⟨6, 18, 14, 8⟩]
      ∧ batteryBarWidth 25 ≤ batteryBarWidth 75 :=
  have w := BatteryMeter_draw_bar_width
    (exampleHost true false false false 75 GColor.GColorWhite) Globals.start blankContext 10 25
    rfl (by decide) (by decide)
  ⟨rfl, by decide, by decide, w.1, w.2.2.1⟩

/-- C6: on a full-colour display and while not charging, for every charge from 0
to 100 the battery bar is the only rectangle filled, and the fill colour in
effect is red when the charge is at most 20 and black otherwise. -/
theorem BatteryMeter_draw_fill_color_full (h : Host) (g : Globals) (ctx : GContext)
    (yOffset : Int) (hcol : h.PBL_COLOR = true)
    (hc : h.battery_state_service_peek.is_charging = false)
    (_hp : h.battery_state_service_peek.charge_percent ≤ 100) :
    fillColors (emitted ctx (BatteryMeter_draw h g ctx yOffset))
      = [if h.battery_state_service_peek.charge_percent ≤ 20 then GColor.GColorRed
         else GColor.GColorBlack] := by
  cases hi : g.batteryImage <;> cases hs : h.globalSettings.showBatteryPct <;>
    cases hl : h.globalSettings.useLargeFonts <;>
    by_cases h20 : h.battery_state_service_peek.charge_percent ≤ 20 <;>
    simp [BatteryMeter_draw, hc, hi, hcol, hs, hl, h20, emitted, gdraw_command_image_draw,
      graphics_draw_bitmap_in_rect, graphics_fill_rect, graphics_draw_text,
      graphics_context_set_fill_color, fillColors]

/-- C6 at the scenario of the specification: 15 percent, not charging, full
colour: the bar is filled in red. -/
theorem BatteryMeter_draw_fill_color_full_witness :
    (exampleHost true false false false 15 GColor.GColorWhite).PBL_COLOR = true
      ∧ (exampleHost true false false false 15
          GColor.GColorWhite).battery_state_service_peek.is_charging = false
      ∧ (exampleHost true false false false 15
          GColor.GColorWhite).battery_state_service_peek.charge_percent ≤ 100
      ∧ fillColors (emitted blankContext
          (BatteryMeter_draw (exampleHost true false false false 15 GColor.GColorWhite)
            Globals.start blankContext 0))
        = [GColor.GColorRed] :=
  ⟨rfl, rfl, by decide,
    BatteryMeter_draw_fill_color_full (exampleHost true false false false 15 GColor.GColorWhite)
      Globals.start blankContext 0 rfl rfl (by decide)⟩

/-- C9, as stated, fails: on a reduced-colour display with white sidebar text, a
bar for 50 percent (above 20, not charging) is filled in white, not in black. -/
theorem BatteryMeter_draw_fill_color_reduced_counterexample :
    (exampleHost false false false false 50 GColor.GColorWhite).PBL_COLOR = false
      ∧ (exampleHost false false false false 50
          GColor.GColorWhite).battery_state_service_peek.is_charging = false
      ∧ 20 < (exampleHost false false false false 50
          GColor.GColorWhite).battery_state_service_peek.charge_percent
      ∧ (exampleHost false false false false 50
          GColor.GColorWhite).battery_state_service_peek.charge_percent ≤ 100
      ∧ fillColors (emitted blankContext
          (BatteryMeter_draw (exampleHost false false false false 50 GColor.GColorWhite)
            Globals.start blankContext 0))
        = [GColor.GColorWhite]
      ∧ fillColors (emitted blankContext
          (BatteryMeter_draw (exampleHost false false false false 50 GColor.GColorWhite)
            Globals.start blankContext 0))
        ≠ [GColor.GColorBlack] := by
  decide

/-- C9, amended: on a reduced-colour display and while not charging, for every
charge from 0 to 100 the battery bar is the only rectangle filled and its fill
colour does not depend on the charge: it is white when the configured sidebar
text colour is white, and black otherwise. -/
theorem BatteryMeter_draw_fill_color_reduced (h : Host) (g : Globals) (ctx : GContext)
    (yOffset : Int) (hcol : h.PBL_COLOR = false)
    (hc : h.battery_state_service_peek.is_charging = false)
    (_hp : h.battery_state_service_peek.charge_percent ≤ 100) :
    fillColors (emitted ctx (BatteryMeter_draw h g ctx yOffset))
      = [if h.globalSettings.sidebarTextColor = GColor.GColorWhite then GColor.GColorWhite
         else GColor.GColorBlack] := by
  cases hi : g.batteryImage <;> cases hs : h.globalSettings.showBatteryPct <;>
    cases hl : h.globalSettings.useLargeFonts <;>
    by_cases hw : h.globalSettings.sidebarTextColor = GColor.GColorWhite <;>
    simp [BatteryMeter_draw, hc, hi, hcol, hs, hl, hw, emitted, gdraw_command_image_draw,
      graphics_draw_bitmap_in_rect, graphics_fill_rect, graphics_draw_text,
      graphics_context_set_fill_color, fillColors]

/-- C9, amended, at concrete inputs: 15 percent with black sidebar text gives a
black bar. -/
theorem BatteryMeter_draw_fill_color_reduced_witness :
    (exampleHost false false false false 15 GColor.GColorBlack).PBL_COLOR = false
      ∧ (exampleHost false false false false 15
          GColor.GColorBlack).battery_state_service_peek.is_charging = false
      ∧ (exampleHost false false false false 15
          GColor.GColorBlack).battery_state_service_peek.charge_percent ≤ 100
      ∧ fillColors (emitted blankContext
          (BatteryMeter_draw (exampleHost false false false false 15 GColor.GColorBlack)
            Globals.start blankContext 0))
        = [GColor.GColorBlack] :=
  ⟨rfl, rfl, by decide,
    BatteryMeter_draw_fill_color_reduced
      (exampleHost false false false false 15 GColor.GColorBlack)
      Globals.start blankContext 0 rfl rfl (by decide)⟩

/-- C8 at a failing input: with the percentage shown in normal font at 50
percent, not charging, offset 0 and no image loaded, the operations are the bar
and the text, and the text box `(-4, 18, 38, 20)` ends at 38, below the reserved
height `BatteryMeter_getHeight = 20`. -/
theorem BatteryMeter_draw_exceeds_height :
    BatteryMeter_getHeight = 20
      ∧ opRects (emitted blankContext
          (BatteryMeter_draw (exampleHost true false true false 50 GColor.GColorWhite)
            Globals.start blankContext 0))
        = [⟨6, 8, 9, 8⟩, ⟨-4, 18, 38, 20⟩]
      ∧ ¬ ((⟨-4, 18, 38, 20⟩ : GRect).y + (⟨-4, 18, 38, 20⟩ : GRect).h
            ≤ 0 + BatteryMeter_getHeight) := by
  decide

/-- C7: with the percentage display enabled and while not charging, for every
charge `p` from 0 to 100 `BatteryMeter_draw` draws exactly one text: the decimal
digits of `p` followed by a percent sign in the box `(-4, yOffset + 18, 38, 20)` in
normal-font mode, the digits alone in the box `(-4, yOffset + 14, 38, 20)` in
large-font mode. That text is the complete formatted output, at most 4
characters long. For any integer `v` and either font mode the 6-character array
keeps its length and holds a terminated string: the formatted output cut to
its first 5 characters. -/
theorem BatteryMeter_draw_percent_text (h : Host) (g : Globals) (ctx : GContext)
    (yOffset : Int) (large : Bool) (v : Int)
    (hs : h.globalSettings.showBatteryPct = true)
    (hc : h.battery_state_service_peek.is_charging = false)
    (hp : h.battery_state_service_peek.charge_percent ≤ 100) :
    textBoxes (emitted ctx (BatteryMeter_draw h g ctx yOffset))
        = [if h.globalSettings.useLargeFonts then
            (Nat.toDigits 10 h.battery_state_service_peek.charge_percent,
              ⟨-4, yOffset + 14, 38, 20⟩)
          else
            (Nat.toDigits 10 h.battery_state_service_peek.charge_percent ++ ['%'],
              ⟨-4, yOffset + 18, 38, 20⟩)]
      ∧ cstr (batteryString h.globalSettings.useLargeFonts
            (Int.ofNat h.battery_state_service_peek.charge_percent))
        = some (if h.globalSettings.useLargeFonts then
            fmt_d (Int.ofNat h.battery_state_service_peek.charge_percent)
          else fmt_d (Int.ofNat h.battery_state_service_peek.charge_percent) ++ ['%'])
      ∧ (strOf (batteryString h.globalSettings.useLargeFonts
            (Int.ofNat h.battery_state_service_peek.charge_percent))).length ≤ 4
      ∧ (batteryString large v).length = 6
      ∧ cstr (batteryString large v)
        = some ((if large then fmt_d v else fmt_d v ++ ['%']).take 5)
      ∧ ((if large then fmt_d v else fmt_d v ++ ['%']).take 5).length ≤ 5 := by
  have hfmt : ∀ (l : Bool) (w : Int), ∀ c ∈ (if l then fmt_d w else fmt_d w ++ ['%']),
      c ≠ NUL := by
    intro l w c hcm
    cases l
    · rcases List.mem_append.mp hcm with hcm | hcm
      · exact fmt_d_ne_NUL w c hcm
      · rw [List.mem_singleton.mp hcm]; decide
    · exact fmt_d_ne_NUL w c hcm
  have hgen : ∀ (l : Bool) (w : Int), cstr (batteryString l w)
      = some ((if l then fmt_d w else fmt_d w ++ ['%']).take 5) := fun l w =>
    snprintf_cstr _ _ 6 (by decide) (hfmt l w)
  have htxt := batteryString_text
  have hlen : ∀ (l : Bool) (p : Nat), p ≤ 100 →
      (if l then Nat.toDigits 10 p else Nat.toDigits 10 p ++ ['%']).length ≤ 4 := by
    intro l p hp
    interval_cases p <;> cases l <;> decide
  have hfull : ∀ (l : Bool) (p : Nat), p ≤ 100 →
      (if l then fmt_d (Int.ofNat p) else fmt_d (Int.ofNat p) ++ ['%'])
        = (if l then Nat.toDigits 10 p else Nat.toDigits 10 p ++ ['%']) := by
    intro l p _
    have : fmt_d (Int.ofNat p) = Nat.toDigits 10 p := by
      unfold fmt_d
      rw [if_neg (by simp)]
      rfl
    rw [this]
  have ht1 : strOf (batteryString false (h.battery_state_service_peek.charge_percent : Int))
      = Nat.toDigits 10 h.battery_state_service_peek.charge_percent ++ ['%'] :=
    htxt false _ hp
  have ht2 : strOf (batteryString true (h.battery_state_service_peek.charge_percent : Int))
      = Nat.toDigits 10 h.battery_state_service_peek.charge_percent :=
    htxt true _ hp
  refine ⟨?_, ?_, ?_, ?_, hgen large v, ?_⟩
  · cases hi : g.batteryImage <;> cases hl : h.globalSettings.useLargeFonts <;>
      cases hcol : h.PBL_COLOR <;>
      by_cases h20 : h.battery_state_service_peek.charge_percent ≤ 20 <;>
      by_cases hwhite : h.globalSettings.sidebarTextColor = GColor.GColorWhite <;>
      simp [BatteryMeter_draw, hc, hi, hcol, hs, hl, h20, hwhite, ht1, ht2, emitted,
        gdraw_command_image_draw, graphics_draw_bitmap_in_rect, graphics_fill_rect,
        graphics_draw_text, graphics_context_set_fill_color, textBoxes, add_comm]
  · rw [hgen, hfull _ _ hp, List.take_of_length_le]
    exact le_trans (hlen _ _ hp) (by decide)
  · rw [htxt _ _ hp]
    exact hlen _ _ hp
  · exact snprintf_length _ _ 6 (by simp)
  · simp only [List.length_take]
    omega

/-- C7 at concrete inputs: 100 percent in normal-font mode at offset 10, and
the value -2147483648 in normal-font mode, which is cut to 5 characters. -/
theorem BatteryMeter_draw_percent_text_witness :
    (exampleHost true false true false 100 GColor.GColorWhite).globalSettings.showBatteryPct
        = true
      ∧ (exampleHost true false true false 100
          GColor.GColorWhite).battery_state_service_peek.is_charging = false
      ∧ (exampleHost true false true false 100
          GColor.GColorWhite).battery_state_service_peek.charge_percent ≤ 100
      ∧ textBoxes (emitted blankContext
          (BatteryMeter_draw (exampleHost true false true false 100 GColor.GColorWhite)
            Globals.start blankContext 10))
        = [(['1', '0', '0', '%'], ⟨-4, 28, 38, 20⟩)]
      ∧ cstr (batteryString false (-2147483648)) = some ['-', '2', '1', '4', '7'] :=
  have w := BatteryMeter_draw_percent_text
    (exampleHost true false true false 100 GColor.GColorWhite) Globals.start blankContext 10
    false (-2147483648) rfl rfl (by decide)
  ⟨rfl, rfl, by decide, w.1, w.2.2.2.2.1⟩

/-! ## The date widget -/

/-- C10: the context `DateWidget_draw` returns does not depend on its offset
argument. The three texts are, in drawing order, the day number, the day name
and the month, in boxes at y = 121, 95, 142 in normal-font mode and at
y = 113, 89, 137 in large-font mode. In normal-font mode the only image drawn is
the date background, at `(3, 118)`, when it is loaded; in large-font mode no
image is drawn. -/
theorem DateWidget_draw_ignores_offset (h : Host) (g : Globals) (ctx : GContext)
    (yOffset yOffset2 : Int) :
    DateWidget_draw h g ctx yOffset = DateWidget_draw h g ctx yOffset2
      ∧ textBoxes (emitted ctx (DateWidget_draw h g ctx yOffset))
        = (if h.globalSettings.useLargeFonts then
            [(strOf g.currentDayNum, ⟨0, 113, 30, 20⟩),
             (strOf g.currentDayName, ⟨-5, 89, 40, 20⟩),
             (strOf g.currentMonth, ⟨0, 137, 30, 20⟩)]
          else
            [(strOf g.currentDayNum, ⟨0, 121, 30, 20⟩),
             (strOf g.currentDayName, ⟨-5, 95, 40, 20⟩),
             (strOf g.currentMonth, ⟨0, 142, 30, 20⟩)])
      ∧ imageAnchors (emitted ctx (DateWidget_draw h g ctx yOffset))
        = (if h.globalSettings.useLargeFonts then []
          else match g.dateImage with
            | some img => [(img, ⟨3, 118⟩)]
            | none => []) := by
  refine ⟨rfl, ?_, ?_⟩ <;>
    cases hi : g.dateImage <;> cases hl : h.globalSettings.useLargeFonts <;>
    cases hcol : h.PBL_COLOR <;>
    by_cases hw : h.globalSettings.sidebarTextColor = GColor.GColorWhite <;>
    simp [DateWidget_draw, hi, hcol, hl, hw, emitted, gdraw_command_image_draw,
      graphics_draw_bitmap_in_rect, graphics_fill_rect, graphics_draw_text,
      graphics_context_set_fill_color, graphics_context_set_text_color, textBoxes,
      imageAnchors]

/-! ## The date strings -/

/-- C4: for every day of the month `d` from 1 to 31, after
`SidebarWidgets_updateTime` the day-number array holds the terminated string of
the decimal digits of `d`, unpadded. `strftime` produces a space and the digit
for a single-digit day and the two digits otherwise; for a single-digit day the
update moves the digit to the front and terminates the string after it (one
character), for a two-digit day it leaves the array as `strftime` wrote it. -/
theorem SidebarWidgets_updateTime_dayNum (h : Host) (g : Globals) (timeInfo : Tm)
    (h1 : 1 ≤ timeInfo.tm_mday) (h31 : timeInfo.tm_mday ≤ 31) :
    cstr (SidebarWidgets_updateTime h g timeInfo).currentDayNum
        = some (Nat.toDigits 10 timeInfo.tm_mday)
      ∧ cstr (strftime_e g.currentDayNum 3 timeInfo.tm_mday)
        = some (if timeInfo.tm_mday < 10 then ' ' :: Nat.toDigits 10 timeInfo.tm_mday
            else Nat.toDigits 10 timeInfo.tm_mday)
      ∧ (Nat.toDigits 10 timeInfo.tm_mday).length = (if timeInfo.tm_mday < 10 then 1 else 2)
      ∧ (SidebarWidgets_updateTime h g timeInfo).currentDayNum
        = (if timeInfo.tm_mday < 10 then
            Nat.toDigits 10 timeInfo.tm_mday ++ [NUL, NUL] ++ g.currentDayNum.drop 3
          else strftime_e g.currentDayNum 3 timeInfo.tm_mday) := by
  obtain ⟨d, mon, wday⟩ := timeInfo
  simp only at h1 h31 ⊢
  interval_cases d <;>
    simp [SidebarWidgets_updateTime, strftime_e, fmt_e, Nat.toDigits, Nat.toDigitsCore,
      Nat.digitChar] <;>
    first
      | exact cstr_two _ _ _ (by decide) (by decide)
      | exact ⟨cstr_one _ _ (by decide), cstr_two _ _ _ (by decide) (by decide)⟩

/-- C4 at the days 5 and 15, starting from the initial arrays. -/
theorem SidebarWidgets_updateTime_dayNum_witness :
    (1 ≤ (⟨5, 11, 3⟩ : Tm).tm_mday ∧ (⟨5, 11, 3⟩ : Tm).tm_mday ≤ 31)
      ∧ (SidebarWidgets_updateTime (exampleHost true false true false 75 GColor.GColorWhite)
          Globals.start ⟨5, 11, 3⟩).currentDayNum
        = ['5', NUL, NUL, NUL, NUL, NUL, NUL, NUL]
      ∧ (1 ≤ (⟨15, 11, 3⟩ : Tm).tm_mday ∧ (⟨15, 11, 3⟩ : Tm).tm_mday ≤ 31)
      ∧ cstr (SidebarWidgets_updateTime (exampleHost true false true false 75 GColor.GColorWhite)
          Globals.start ⟨15, 11, 3⟩).currentDayNum
        = some ['1', '5'] :=
  ⟨by decide,
    (SidebarWidgets_updateTime_dayNum (exampleHost true false true false 75 GColor.GColorWhite)
      Globals.start ⟨5, 11, 3⟩ (by decide) (by decide)).2.2.2,
    by decide,
    (SidebarWidgets_updateTime_dayNum (exampleHost true false true false 75 GColor.GColorWhite)
      Globals.start ⟨15, 11, 3⟩ (by decide) (by decide)).1⟩


/-- C5, as stated, fails: with a day-name table whose entry for language 0 and
weekday 4 is the 10-character name DONNERSTAG, the day-name array holds the
first 8 characters and no terminator, so it holds no terminated string and in
particular not the table entry. -/
theorem SidebarWidgets_updateTime_names_counterexample :
    longNameHost.globalSettings.languageId = 0
      ∧ longNameHost.dayNames 0 4 = ['D', 'O', 'N', 'N', 'E', 'R', 'S', 'T', 'A', 'G']
      ∧ (SidebarWidgets_updateTime longNameHost Globals.start ⟨5, 11, 4⟩).currentDayName
        = ['D', 'O', 'N', 'N', 'E', 'R', 'S', 'T']
      ∧ cstr (SidebarWidgets_updateTime longNameHost Globals.start ⟨5, 11, 4⟩).currentDayName
        = none
      ∧ cstr (SidebarWidgets_updateTime longNameHost Globals.start ⟨5, 11, 4⟩).currentDayName
        ≠ some (strOf (longNameHost.dayNames 0 4)) := by
  decide

/-- C5, amended: for every language, weekday from 0 to 6 and month from 0 to 11
whose two table entries are shorter than 8 characters, after
`SidebarWidgets_updateTime` the day-name array holds the terminated string
`dayNames[languageId][weekday]` and the month array the terminated string
`monthNames[languageId][month]`, and both arrays keep their 8 characters. -/
theorem SidebarWidgets_updateTime_names (h : Host) (g : Globals) (timeInfo : Tm)
    (_hwday : timeInfo.tm_wday ≤ 6) (_hmon : timeInfo.tm_mon ≤ 11)
    (hday : (strOf (h.dayNames h.globalSettings.languageId timeInfo.tm_wday)).length < 8)
    (hmonth : (strOf (h.monthNames h.globalSettings.languageId timeInfo.tm_mon)).length < 8)
    (hb1 : g.currentDayName.length = 8) (hb2 : g.currentMonth.length = 8) :
    cstr (SidebarWidgets_updateTime h g timeInfo).currentDayName
        = some (strOf (h.dayNames h.globalSettings.languageId timeInfo.tm_wday))
      ∧ cstr (SidebarWidgets_updateTime h g timeInfo).currentMonth
        = some (strOf (h.monthNames h.globalSettings.languageId timeInfo.tm_mon))
      ∧ (SidebarWidgets_updateTime h g timeInfo).currentDayName.length = 8
      ∧ (SidebarWidgets_updateTime h g timeInfo).currentMonth.length = 8 := by
  have hn : (SidebarWidgets_updateTime h g timeInfo).currentDayName
      = strncpy g.currentDayName (h.dayNames h.globalSettings.languageId timeInfo.tm_wday) 8 := by
    unfold SidebarWidgets_updateTime
    simp only
    split <;> rfl
  have hm : (SidebarWidgets_updateTime h g timeInfo).currentMonth
      = strncpy g.currentMonth (h.monthNames h.globalSettings.languageId timeInfo.tm_mon) 8 := by
    unfold SidebarWidgets_updateTime
    simp only
    split <;> rfl
  rw [hn, hm]
  exact ⟨strncpy_cstr _ _ 8 hday, strncpy_cstr _ _ 8 hmonth,
    by rw [strncpy_length _ _ 8 (by omega), hb1], by rw [strncpy_length _ _ 8 (by omega), hb2]⟩

/-- C5, amended, at the scenario of the specification: language 0, weekday 3,
month 11, with the English abbreviations. -/
theorem SidebarWidgets_updateTime_names_witness :
    ((⟨5, 11, 3⟩ : Tm).tm_wday ≤ 6 ∧ (⟨5, 11, 3⟩ : Tm).tm_mon ≤ 11)
      ∧ cstr (SidebarWidgets_updateTime (exampleHost true false true false 75 GColor.GColorWhite)
          Globals.start ⟨5, 11, 3⟩).currentDayName
        = some ['W', 'E', 'D']
      ∧ cstr (SidebarWidgets_updateTime (exampleHost true false true false 75 GColor.GColorWhite)
          Globals.start ⟨5, 11, 3⟩).currentMonth
        = some ['D', 'E', 'C'] :=
  have w := SidebarWidgets_updateTime_names
    (exampleHost true false true false 75 GColor.GColorWhite) Globals.start ⟨5, 11, 3⟩
    (by decide) (by decide) (by decide) (by decide) (by decide) (by decide)
  ⟨by decide, w.1, w.2.1⟩

end SidebarWidgets
